import Mathlib

/-!
Verification of the Cli-Proxy-API-Management-Center front-end fragment:
the `CollapsibleContent` widget and the quota page orchestration
(`loadConfig`, `loadFiles`, `refreshAllQuotas` in `QuotaPage.tsx`).

The TypeScript source is shallowly embedded: React state updates become
explicit state passing, the asynchronous awaits of `refreshAllQuotas`
become a deterministic run function over an environment that fixes the
outcome of every request and the instant (counted in completed awaits)
at which the cooperative abort flag is flipped.
-/

namespace CliProxy

/-! ## CollapsibleContent (src/unnamed/part_000)

Modelled from the spec: `JSON.parse` / `JSON.stringify(·, null, 2)` are
platform builtins that are not part of this repository; they are modelled
below by a small executable JSON value type, a fuel-driven parser that
fails (returns `none`) exactly where `JSON.parse` would throw on the
modelled fragment, and a 2-space-indent pretty-printer.  The model covers
null, booleans, integer numbers, strings with simple escapes, arrays and
objects. -/

/-- Modelled from the spec: the platform JSON value space (integer numbers
only in this model). -/
inductive Json where
  | null
  | bool (b : Bool)
  | num (n : Int)
  | str (s : String)
  | arr (items : List Json)
  | obj (members : List (String × Json))

/-- Spaces used for a given indentation depth. -/
def indentStr (n : Nat) : String :=
  String.mk (List.replicate n ' ')

/-- Escaping of one character inside a JSON string literal. -/
def escapeJsonChar (c : Char) : List Char :=
  if c = '\"' then ['\\', '\"']
  else if c = '\\' then ['\\', '\\']
  else if c = '\n' then ['\\', 'n']
  else if c = '\t' then ['\\', 't']
  else if c = '\r' then ['\\', 'r']
  else [c]

/-- Quote a string as a JSON string literal. -/
def quoteJsonString (s : String) : String :=
  "\"" ++ String.mk (s.data.foldr (fun c acc => escapeJsonChar c ++ acc) []) ++ "\""

mutual

/-- Modelled from the spec: `JSON.stringify(v, null, 2)` at the given
current indentation depth. -/
def stringifyVal : Nat → Json → String
  | _, Json.null => "null"
  | _, Json.bool b => if b then "true" else "false"
  | _, Json.num n => toString n
  | _, Json.str s => quoteJsonString s
  | _, Json.arr [] => "[]"
  | ind, Json.arr (x :: xs) =>
      "[\n" ++ stringifyItems (ind + 2) (x :: xs) ++ "\n" ++ indentStr ind ++ "]"
  | _, Json.obj [] => "\x7b\x7d"
  | ind, Json.obj (m :: ms) =>
      "\x7b\n" ++ stringifyMembers (ind + 2) (m :: ms) ++ "\n" ++ indentStr ind ++ "\x7d"

/-- Array elements, one per line, comma separated. -/
def stringifyItems : Nat → List Json → String
  | _, [] => ""
  | ind, [x] => indentStr ind ++ stringifyVal ind x
  | ind, x :: y :: ys =>
      indentStr ind ++ stringifyVal ind x ++ ",\n" ++ stringifyItems ind (y :: ys)

/-- Object members, one per line, comma separated. -/
def stringifyMembers : Nat → List (String × Json) → String
  | _, [] => ""
  | ind, [kv] => indentStr ind ++ quoteJsonString kv.1 ++ ": " ++ stringifyVal ind kv.2
  | ind, kv :: m :: ms =>
      indentStr ind ++ quoteJsonString kv.1 ++ ": " ++ stringifyVal ind kv.2
        ++ ",\n" ++ stringifyMembers ind (m :: ms)

end

/-- Top-level `JSON.stringify(v, null, 2)` model. -/
def stringifyIndent2 (j : Json) : String :=
  stringifyVal 0 j

/-- Skip JSON whitespace. -/
def skipWs : List Char → List Char
  | c :: cs =>
      if c = ' ' ∨ c = '\n' ∨ c = '\t' ∨ c = '\r' then skipWs cs else c :: cs
  | [] => []

/-- Reverse of `escapeJsonChar` for the supported escapes. -/
def unescapeChar (c : Char) : Option Char :=
  if c = '\"' then some '\"'
  else if c = '\\' then some '\\'
  else if c = '/' then some '/'
  else if c = 'n' then some '\n'
  else if c = 't' then some '\t'
  else if c = 'r' then some '\r'
  else none

/-- Parse the body of a JSON string literal (after the opening quote),
accumulating characters in reverse. -/
def parseStringBody : List Char → List Char → Option (String × List Char)
  | acc, '\"' :: cs => some (String.mk acc.reverse, cs)
  | acc, '\\' :: c :: cs =>
      match unescapeChar c with
      | some c2 => parseStringBody (c2 :: acc) cs
      | none => none
  | _, ['\\'] => none
  | acc, c :: cs => parseStringBody (c :: acc) cs
  | _, [] => none

/-- Numeric value of a decimal digit character. -/
def digitVal (c : Char) : Nat :=
  c.toNat - '0'.toNat

/-- Consume a maximal run of decimal digits, extending the accumulator. -/
def readDigits : List Char → Nat → Nat × List Char
  | c :: cs, acc =>
      if c.isDigit then readDigits cs (acc * 10 + digitVal c) else (acc, c :: cs)
  | [], acc => (acc, [])

/-- Parse a JSON number (integers only in this model). -/
def parseNumber : List Char → Option (Json × List Char)
  | '-' :: c :: cs =>
      if c.isDigit then
        let p := readDigits cs (digitVal c)
        some (Json.num (-(p.1 : Int)), p.2)
      else none
  | c :: cs =>
      if c.isDigit then
        let p := readDigits cs (digitVal c)
        some (Json.num (p.1 : Int), p.2)
      else none
  | [] => none

mutual

/-- Modelled from the spec: one step of the `JSON.parse` grammar, fuel
bounded; `none` models a thrown `SyntaxError`. -/
def parseValue : Nat → List Char → Option (Json × List Char)
  | 0, _ => none
  | fuel + 1, cs =>
      match skipWs cs with
      | 'n' :: 'u' :: 'l' :: 'l' :: rest => some (Json.null, rest)
      | 't' :: 'r' :: 'u' :: 'e' :: rest => some (Json.bool true, rest)
      | 'f' :: 'a' :: 'l' :: 's' :: 'e' :: rest => some (Json.bool false, rest)
      | '\"' :: rest =>
          match parseStringBody [] rest with
          | some p => some (Json.str p.1, p.2)
          | none => none
      | '[' :: rest =>
          match skipWs rest with
          | ']' :: rest2 => some (Json.arr [], rest2)
          | rest2 =>
              match parseValue fuel rest2 with
              | some p => parseArrayTail fuel [p.1] p.2
              | none => none
      | '\x7b' :: rest =>
          match skipWs rest with
          | '\x7d' :: rest2 => some (Json.obj [], rest2)
          | rest2 =>
              match parseMember fuel rest2 with
              | some p => parseObjTail fuel [p.1] p.2
              | none => none
      | other => parseNumber other

/-- Remaining elements of an array after the first, fuel bounded. -/
def parseArrayTail : Nat → List Json → List Char → Option (Json × List Char)
  | 0, _, _ => none
  | fuel + 1, acc, cs =>
      match skipWs cs with
      | ',' :: rest =>
          match parseValue fuel rest with
          | some p => parseArrayTail fuel (acc ++ [p.1]) p.2
          | none => none
      | ']' :: rest => some (Json.arr acc, rest)
      | _ => none

/-- One `"key": value` member of an object, fuel bounded. -/
def parseMember : Nat → List Char → Option ((String × Json) × List Char)
  | 0, _ => none
  | fuel + 1, cs =>
      match skipWs cs with
      | '\"' :: rest =>
          match parseStringBody [] rest with
          | some kp =>
              match skipWs kp.2 with
              | ':' :: rest3 =>
                  match parseValue fuel rest3 with
                  | some vp => some ((kp.1, vp.1), vp.2)
                  | none => none
              | _ => none
          | none => none
      | _ => none

/-- Remaining members of an object after the first, fuel bounded. -/
def parseObjTail : Nat → List (String × Json) → List Char → Option (Json × List Char)
  | 0, _, _ => none
  | fuel + 1, acc, cs =>
      match skipWs cs with
      | ',' :: rest =>
          match parseMember fuel rest with
          | some p => parseObjTail fuel (acc ++ [p.1]) p.2
          | none => none
      | '\x7d' :: rest => some (Json.obj acc, rest)
      | _ => none

end

/-- Modelled from the spec: `JSON.parse`; `none` where `JSON.parse`
throws.  The fuel is generous enough for any input of the given length. -/
def jsonParse (text : String) : Option Json :=
  match parseValue (2 * text.data.length + 4) text.data with
  | some p => if (skipWs p.2).isEmpty then some p.1 else none
  | none => none

/-- The `formatContent` helper of `CollapsibleContent`: pretty-print when
the content parses as JSON, otherwise return the text unchanged
(the `catch` branch of the source). -/
def formatContent (text : String) : String :=
  match jsonParse text with
  | some parsed => stringifyIndent2 parsed
  | none => text

/-- The three shapes `CollapsibleContent` can render: the plain span with
no toggle, the collapsed preview with the expand button's size label, and
the expanded full content. -/
inductive Rendered where
  | plain (content : String)
  | collapsed (preview : String) (sizeLabel : String)
  | expanded (content : String)
deriving DecidableEq

/-- The initial value of the `isExpanded` local state (`useState(false)`). -/
def initialIsExpanded : Bool := false

/-- Effect of one click on the visible toggle button: the collapsed
branch's button sets the state to `true`, the expanded branch's button
sets it to `false`. -/
def clickToggle (isExpanded : Bool) : Bool :=
  if isExpanded then false else true

/-- Rendering of `CollapsibleContent` given its props and the local
`isExpanded` state.  Mirrors the source: content within the threshold is
returned as a plain span; otherwise the expanded branch shows
`formatContent content` and the collapsed branch shows the first
`maxPreviewLength` characters, an ellipsis, and the size label
`ceil(length/1024)KB` on the expand button. -/
def renderCollapsible (content : String) (maxPreviewLength : Nat := 200)
    (isExpanded : Bool := initialIsExpanded) : Rendered :=
  if content.length ≤ maxPreviewLength then Rendered.plain content
  else if isExpanded then Rendered.expanded (formatContent content)
  else
    Rendered.collapsed (String.mk (content.data.take maxPreviewLength) ++ "...")
      (Nat.repr ((content.length + 1023) / 1024) ++ "KB")

/-! ## Quota page (src/src/pages/QuotaPage.tsx)

The page state, the two loaders and the `refreshAllQuotas` orchestration
are embedded as deterministic functions over an environment fixing every
request outcome.  A thrown JavaScript value is modelled by `JsErr`
(whether it is an `Error` instance, its `message`, and its optional
numeric `status`); a fallible await is an `Except JsErr`.  The
cooperative abort flag is modelled by `abortDuring`: the closure stored
in `refreshAllAbortRef` can only run while the orchestration is suspended
at an await, so a run's abort instant is the 1-based index of the await
during which the flag flips; every later abort check observes `true`. -/

/-- A credential file (`AuthFileItem` from `@/types`): its identity key
`name` plus a provider-identifying field. -/
structure AuthFileItem where
  name : String
  fileType : String
deriving DecidableEq

/-- A thrown JavaScript value as observed by the catch blocks of
`QuotaPage.tsx`: whether it is an `Error` instance, its message, and the
optional numeric `status` field read by `(err as any)?.status`. -/
structure JsErr where
  isError : Bool
  message : String
  status : Option Int
deriving DecidableEq

/-- The local React state of `QuotaPage` together with the ambient
connection status and whether an abort closure is currently stored in
`refreshAllAbortRef`. -/
structure PageState where
  connectionStatus : String
  files : List AuthFileItem
  loading : Bool
  error : String
  refreshingAll : Bool
  abortInstalled : Bool
deriving DecidableEq

/-- `disableControls = connectionStatus !== 'connected'`. -/
def disableControls (st : PageState) : Bool :=
  st.connectionStatus != "connected"

/-- The translation function `t`. -/
abbrev Tr := String → String

/-- Modelled from the spec: a provider configuration
(`ANTIGRAVITY_CONFIG` and friends live in `@/components/quota`, outside
the given sources).  Per the spec it is a static descriptor with a
predicate selecting the files that belong to the provider and three
state builders (loading, success, error) producing the per-file display
state stored in the provider's quota-state map.  `D` is the quota data
type, `S` the display state type. -/
structure ProviderConfig (D S : Type) where
  filterFn : AuthFileItem → Bool
  buildLoadingState : S
  buildSuccessState : D → S
  buildErrorState : String → Option Int → S

/-- A provider's quota-state map: file name to display state. -/
abbrev QMap (S : Type) := String → Option S

/-- The quota store: one quota-state map per provider index
(the four maps behind `quotaStore[config.storeSetter]`). -/
abbrev Store (S : Type) := Nat → QMap S

/-- JavaScript object upsert `next[k] = v` on a quota-state map. -/
def updMap (m : QMap S) (k : String) (v : S) : QMap S :=
  fun x => if x = k then some v else m x

/-- Replace provider `i`'s map in the store. -/
def setStore (store : Store S) (i : Nat) (m : QMap S) : Store S :=
  fun j => if j = i then m else store j

/-- One per-file entry of the `Promise.all` result array:
`{name, status: 'success', data}` or `{name, status: 'error', error, errorStatus}`. -/
inductive QuotaResult (D : Type) where
  | success (name : String) (data : D)
  | error (name : String) (message : String) (errorStatus : Option Int)

/-- The `name` field of a per-file result. -/
def QuotaResult.rname : QuotaResult D → String
  | QuotaResult.success n _ => n
  | QuotaResult.error n _ _ => n

/-- The per-file try/catch around `config.fetchQuota` (QuotaPage.tsx
lines 115-126): a rejection is caught individually and converted into an
error entry whose message is `err.message` for `Error` instances and the
translated `common.unknown_error` otherwise, and whose status is
`(err as any)?.status`. -/
def mkResult (t : Tr) (outcome : Except JsErr D) (name : String) : QuotaResult D :=
  match outcome with
  | Except.ok d => QuotaResult.success name d
  | Except.error e =>
      QuotaResult.error name
        (if e.isError then e.message else t ("common.unknown_error")) e.status

/-- The display state the merge step builds for one result entry:
`buildSuccessState(data)` on success, otherwise
`buildErrorState(result.error || t('common.unknown_error'), result.errorStatus)`
(the `||` falls back on the empty string). -/
def resultState (t : Tr) (cfg : ProviderConfig D S) : QuotaResult D → S
  | QuotaResult.success _ d => cfg.buildSuccessState d
  | QuotaResult.error _ msg stc =>
      cfg.buildErrorState (if msg = "" then t ("common.unknown_error") else msg) stc

/-- The first setter call of a provider iteration (lines 105-112): mark
every matching file's entry as loading, merging into the existing map. -/
def markLoading (cfg : ProviderConfig D S) (m : QMap S)
    (filtered : List AuthFileItem) : QMap S :=
  filtered.foldl (fun acc f => updMap acc f.name cfg.buildLoadingState) m

/-- One `results.forEach` step of the merge setter (lines 131-144). -/
def applyResult (t : Tr) (cfg : ProviderConfig D S) (m : QMap S)
    (r : QuotaResult D) : QMap S :=
  updMap m r.rname (resultState t cfg r)

/-- The second setter call of a provider iteration (lines 131-144):
upsert every result entry into the provider's map. -/
def mergeResults (t : Tr) (cfg : ProviderConfig D S) (m : QMap S)
    (rs : List (QuotaResult D)) : QMap S :=
  rs.foldl (applyResult t cfg) m

/-- The environment of one `refreshAllQuotas` run: the outcome of the
config fetch, of the file-list fetch, of each per-file quota fetch
(indexed by provider position and file), and the await during which the
abort closure runs (`none` when it never runs). -/
structure Env (D : Type) where
  configOutcome : Except JsErr Unit
  listOutcome : Except JsErr (Option (List AuthFileItem))
  fetchOutcome : Nat → AuthFileItem → Except JsErr D
  abortDuring : Option Nat

/-- Value of the `aborted` flag at a check point reached after `j`
completed awaits. -/
def isAborted (env : Env D) (j : Nat) : Bool :=
  match env.abortDuring with
  | none => false
  | some a => decide (a ≤ j)

/-- The file list `refreshAllQuotas` works on (`latestFiles?.files || []`),
or `[]` when the list fetch rejects (no list is ever installed then). -/
def filesListOf (env : Env D) : List AuthFileItem :=
  match env.listOutcome with
  | Except.ok data => data.getD []
  | Except.error _ => []

/-- Network events issued by a run (used to state that a no-op issues no
fetch and that a cancelled run never touches later providers). -/
inductive FetchEvent where
  | configFetch
  | listFetch
  | quotaFetch (providerIdx : Nat) (fileName : String)
deriving DecidableEq

/-- `loadConfig` (lines 34-41): fetch the config; on failure set `error`
only if it is still empty (`setError(prev => prev || msg)`); the catch
swallows the exception, so the embedding is a total function. -/
def loadConfigStep (t : Tr) (outcome : Except JsErr Unit) (st : PageState) : PageState :=
  match outcome with
  | Except.ok _ => st
  | Except.error e =>
      { st with
        error :=
          if st.error = "" then
            (if e.isError then e.message else t ("notification.refresh_failed"))
          else st.error }

/-- The opening of `loadFiles` (lines 44-45): `setLoading(true)` then
`setError('')`. -/
def loadFilesBegin (st : PageState) : PageState :=
  { st with loading := true, error := "" }

/-- `loadFiles` (lines 43-55): on success replace `files` with
`data?.files || []`; on failure surface the message into `error`;
`finally` always clears `loading`. -/
def loadFiles (t : Tr) (st : PageState)
    (outcome : Except JsErr (Option (List AuthFileItem))) : PageState :=
  match outcome with
  | Except.ok data =>
      { loadFilesBegin st with files := data.getD [], loading := false }
  | Except.error e =>
      { loadFilesBegin st with
        error := if e.isError then e.message else t ("notification.refresh_failed"),
        loading := false }

/-- The `finally` block of `refreshAllQuotas` (lines 147-152): unless the
run was aborted, clear `refreshingAll` and the stored abort closure. -/
def finalizeRun (env : Env D) (j : Nat) (st : PageState) : PageState :=
  if isAborted env j then st
  else { st with refreshingAll := false, abortInstalled := false }

/-- The provider loop of `refreshAllQuotas` (lines 98-145).  Arguments:
remaining configs, index of the first of them, number of completed
awaits, current store, event log.  Each iteration checks the abort flag,
skips providers with no matching files, marks matching entries loading,
issues the parallel per-file fetches (one more await), checks the abort
flag again and only then merges the settled results. -/
def runLoop (t : Tr) (env : Env D) (filesList : List AuthFileItem) :
    List (ProviderConfig D S) → Nat → Nat → Store S → List FetchEvent →
    Store S × List FetchEvent × Nat
  | [], _, j, store, log => (store, log, j)
  | cfg :: rest, i, j, store, log =>
      if isAborted env j then (store, log, j)
      else
        let filtered := filesList.filter cfg.filterFn
        if filtered.isEmpty then runLoop t env filesList rest (i + 1) j store log
        else
          let store1 := setStore store i (markLoading cfg (store i) filtered)
          let log1 := log ++ filtered.map (fun f => FetchEvent.quotaFetch i f.name)
          if isAborted env (j + 1) then (store1, log1, j + 1)
          else
            let results := filtered.map (fun f => mkResult t (env.fetchOutcome i f) f.name)
            let store2 := setStore store1 i (mergeResults t cfg (store1 i) results)
            runLoop t env filesList rest (i + 1) (j + 1) store2 log1

/-- Result of one `refreshAllQuotas` invocation: the final page state,
the final quota store, and the fetches that were issued. -/
structure RunResult (S : Type) where
  page : PageState
  store : Store S
  fetchLog : List FetchEvent

/-- `refreshAllQuotas` (lines 63-153).  Guard, flag installation, config
refresh (await 1, abort check), file-list fetch (await 2; a rejection is
caught by the outer catch and surfaced into `error`), abort check,
`setFiles`, the provider loop, and the `finally` block. -/
def refreshAllQuotas (t : Tr) (configs : List (ProviderConfig D S)) (env : Env D)
    (st : PageState) (store : Store S) : RunResult S :=
  if st.refreshingAll || disableControls st then ⟨st, store, []⟩
  else
    let st1 : PageState := { st with refreshingAll := true, error := "", abortInstalled := true }
    let st2 := loadConfigStep t env.configOutcome st1
    if isAborted env 1 then ⟨st2, store, [FetchEvent.configFetch]⟩
    else
      match env.listOutcome with
      | Except.error e =>
          let st3 :=
            { st2 with
              error := if e.isError then e.message else t ("notification.refresh_failed") }
          ⟨finalizeRun env 2 st3, store, [FetchEvent.configFetch, FetchEvent.listFetch]⟩
      | Except.ok data =>
          if isAborted env 2 then
            ⟨st2, store, [FetchEvent.configFetch, FetchEvent.listFetch]⟩
          else
            let filesList := data.getD []
            let st3 := { st2 with files := filesList }
            let res :=
              runLoop t env filesList configs 0 2 store
                [FetchEvent.configFetch, FetchEvent.listFetch]
            ⟨finalizeRun env res.2.2 st3, res.1, res.2.1⟩

/-! ## Concrete instantiation used by witnesses and counterexamples

A display-state type shaped like the spec's
`loading | success(data) | error(message, statusCode)` with `Nat` quota
data, provider configurations selecting files by `fileType`, and small
run environments. -/

/-- Concrete display state for witness runs. -/
inductive QDisp where
  | loading
  | success (data : Nat)
  | error (message : String) (statusCode : Option Int)
deriving DecidableEq

/-- Provider configuration over `Nat` data and `QDisp` states whose
builders are the evident constructors. -/
def qdCfg (flt : AuthFileItem → Bool) : ProviderConfig Nat QDisp :=
  { filterFn := flt
    buildLoadingState := QDisp.loading
    buildSuccessState := QDisp.success
    buildErrorState := QDisp.error }

/-- Identity translation table. -/
def tId : Tr := fun key => key

/-- A credential file of provider kind `a`. -/
def fA : AuthFileItem := ⟨"fa", "a"⟩

/-- A credential file of provider kind `b`. -/
def fB : AuthFileItem := ⟨"fb", "b"⟩

/-- Provider selecting kind-`a` files. -/
def cfgA : ProviderConfig Nat QDisp := qdCfg (fun f => f.fileType == "a")

/-- Provider selecting kind-`b` files. -/
def cfgB : ProviderConfig Nat QDisp := qdCfg (fun f => f.fileType == "b")

/-- Provider selecting every file. -/
def cfgAll : ProviderConfig Nat QDisp := qdCfg (fun _ => true)

/-- The store with four empty maps. -/
def emptyStore : Store QDisp := fun _ _ => none

/-- A connected, idle page. -/
def stConnected : PageState :=
  ⟨"connected", [], false, "", false, false⟩

/-- A page with a refresh already in flight. -/
def stBusy : PageState := { stConnected with refreshingAll := true }

/-- A rejection shaped like the spec's example:
`{message: 'timeout', status: 503}` on an `Error` instance. -/
def errTimeout : JsErr := ⟨true, "timeout", some 503⟩

/-- Environment in which every fetch succeeds and the abort closure runs
during await 3, i.e. while provider 0's per-file fetches are in flight. -/
def envAbort3 : Env Nat :=
  { configOutcome := Except.ok ()
    listOutcome := Except.ok (some [fA, fB])
    fetchOutcome := fun _ _ => Except.ok 42
    abortDuring := some 3 }

/-- Environment whose abort closure runs during the first await issued
after the reference instant (used with `runLoop` from `j = 0`). -/
def envAbort1 : Env Nat :=
  { configOutcome := Except.ok ()
    listOutcome := Except.ok (some [fA, fB])
    fetchOutcome := fun _ _ => Except.ok 42
    abortDuring := some 1 }

/-- Environment in which `fa`'s quota fetch rejects with the timeout
error while `fb`'s succeeds with data `7`; never aborted. -/
def envMixed : Env Nat :=
  { configOutcome := Except.ok ()
    listOutcome := Except.ok (some [fA, fB])
    fetchOutcome := fun _ f =>
      if f.name == "fa" then Except.error errTimeout else Except.ok 7
    abortDuring := none }

/-- Environment of an undisturbed successful run over `[fA]`. -/
def envClean : Env Nat :=
  { configOutcome := Except.ok ()
    listOutcome := Except.ok (some [fA])
    fetchOutcome := fun _ _ => Except.ok 42
    abortDuring := none }

/-- A 500-character content string, the spec's size-label example. -/
def xs500 : String := String.mk (List.replicate 500 'x')

/-! ## Helper lemmas -/

theorem updMap_self (m : QMap S) (k : String) (v : S) : updMap m k v k = some v := by
  simp [updMap]

theorem updMap_ne (m : QMap S) {k x : String} (v : S) (h : x ≠ k) :
    updMap m k v x = m x := by
  simp [updMap, h]

theorem setStore_self (store : Store S) (i : Nat) (m : QMap S) :
    setStore store i m i = m := by
  simp [setStore]

theorem setStore_ne (store : Store S) {i q : Nat} (m : QMap S) (h : q ≠ i) :
    setStore store i m q = store q := by
  simp [setStore, h]

/-- A loading-mark pass either leaves a key alone or sets it to the
provider's loading state, and it only touches keys of the marked files. -/
theorem markLoading_eq_or (cfg : ProviderConfig D S) (fl : List AuthFileItem) :
    ∀ (m : QMap S) (k : String),
      markLoading cfg m fl k = m k ∨
        (k ∈ fl.map AuthFileItem.name ∧
          markLoading cfg m fl k = some cfg.buildLoadingState) := by
  induction fl with
  | nil => intro m k; exact Or.inl rfl
  | cons f fs ih =>
    intro m k
    have hstep : markLoading cfg m (f :: fs)
        = markLoading cfg (updMap m f.name cfg.buildLoadingState) fs := rfl
    rcases ih (updMap m f.name cfg.buildLoadingState) k with h | ⟨hk, hv⟩
    · by_cases hkf : k = f.name
      · subst hkf
        refine Or.inr ⟨by simp, ?_⟩
        rw [hstep, h, updMap_self]
      · refine Or.inl ?_
        rw [hstep, h, updMap_ne m _ hkf]
    · exact Or.inr ⟨by simp [hk], by rw [hstep]; exact hv⟩

/-- A merge pass either leaves a key alone or writes some state to it,
and it only touches keys named by the result entries. -/
theorem mergeResults_eq_or (t : Tr) (cfg : ProviderConfig D S)
    (rs : List (QuotaResult D)) :
    ∀ (m : QMap S) (k : String),
      mergeResults t cfg m rs k = m k ∨
        (k ∈ rs.map QuotaResult.rname ∧
          ∃ w, mergeResults t cfg m rs k = some w) := by
  induction rs with
  | nil => intro m k; exact Or.inl rfl
  | cons r rs ih =>
    intro m k
    have hstep : mergeResults t cfg m (r :: rs)
        = mergeResults t cfg (applyResult t cfg m r) rs := rfl
    rcases ih (applyResult t cfg m r) k with h | ⟨hk, w, hv⟩
    · by_cases hkr : k = r.rname
      · subst hkr
        refine Or.inr ⟨by simp, resultState t cfg r, ?_⟩
        rw [hstep, h]; exact updMap_self ..
      · refine Or.inl ?_
        rw [hstep, h]
        exact updMap_ne m _ hkr
    · exact Or.inr ⟨by simp [hk], w, by rw [hstep]; exact hv⟩

/-- A merge pass leaves keys outside the result entries' names alone. -/
theorem mergeResults_notMem (t : Tr) (cfg : ProviderConfig D S)
    (rs : List (QuotaResult D)) :
    ∀ (m : QMap S) (k : String), k ∉ rs.map QuotaResult.rname →
      mergeResults t cfg m rs k = m k := by
  induction rs with
  | nil => intro m k _; rfl
  | cons r rs ih =>
    intro m k hk
    rw [List.map_cons] at hk
    have hk1 : k ≠ r.rname := fun h => hk (h ▸ List.mem_cons_self _ _)
    have hk2 : k ∉ rs.map QuotaResult.rname := fun h => hk (List.mem_cons_of_mem _ h)
    have hstep : mergeResults t cfg m (r :: rs)
        = mergeResults t cfg (applyResult t cfg m r) rs := rfl
    rw [hstep, ih _ _ hk2]
    exact updMap_ne m _ hk1

/-- With pairwise-distinct entry names, the merge writes exactly its own
built state at each entry's key. -/
theorem mergeResults_mem_nodup (t : Tr) (cfg : ProviderConfig D S)
    (rs : List (QuotaResult D)) :
    ∀ (m : QMap S) (r : QuotaResult D),
      (rs.map QuotaResult.rname).Nodup → r ∈ rs →
      mergeResults t cfg m rs r.rname = some (resultState t cfg r) := by
  induction rs with
  | nil => intro m r _ hr; cases hr
  | cons r0 rs ih =>
    intro m r hnd hr
    rw [List.map_cons, List.nodup_cons] at hnd
    obtain ⟨hnd1, hnd2⟩ := hnd
    have hstep : mergeResults t cfg m (r0 :: rs)
        = mergeResults t cfg (applyResult t cfg m r0) rs := rfl
    rcases List.mem_cons.1 hr with hr0 | hrs
    · subst hr0
      rw [hstep, mergeResults_notMem t cfg rs _ _ hnd1]
      exact updMap_self ..
    · rw [hstep]; exact ih _ _ hnd2 hrs

theorem rname_mkResult (t : Tr) (o : Except JsErr D) (n : String) :
    (mkResult t o n).rname = n := by
  cases o <;> rfl

/-- The per-file result entries carry exactly the filtered files' names. -/
theorem map_rname_mkResult (t : Tr) (oc : AuthFileItem → Except JsErr D)
    (fl : List AuthFileItem) :
    (fl.map fun f => mkResult t (oc f) f.name).map QuotaResult.rname
      = fl.map AuthFileItem.name := by
  simp only [List.map_map]
  apply List.map_congr_left
  intro f _
  exact rname_mkResult t (oc f) f.name

/-- Frame property of the provider loop: a key of some provider's map is
either left unchanged by the whole loop, or that provider occurs in the
remaining config list, the key names one of its matching files, and the
final value is an upserted `some`. -/
theorem runLoop_store_frame (t : Tr) (env : Env D) (fl : List AuthFileItem) :
    ∀ (cfgs : List (ProviderConfig D S)) (i0 j : Nat) (store : Store S)
      (log : List FetchEvent) (q : Nat) (k : String),
      (runLoop t env fl cfgs i0 j store log).1 q k = store q k ∨
        ∃ p cfg, cfgs.get? p = some cfg ∧ q = i0 + p ∧
          k ∈ (fl.filter cfg.filterFn).map AuthFileItem.name ∧
          ∃ w, (runLoop t env fl cfgs i0 j store log).1 q k = some w := by
  intro cfgs
  induction cfgs with
  | nil => intro i0 j store log q k; exact Or.inl rfl
  | cons cfg rest ih =>
    intro i0 j store log q k
    by_cases hab : isAborted env j = true
    · left; simp [runLoop, hab]
    · by_cases hemp : (fl.filter cfg.filterFn).isEmpty = true
      · have hrw : runLoop t env fl (cfg :: rest) i0 j store log
            = runLoop t env fl rest (i0 + 1) j store log := by
          simp [runLoop, hab, hemp]
        rw [hrw]
        rcases ih (i0 + 1) j store log q k with h | ⟨p, cfg2, hget, hq, hmem, w, hw⟩
        · exact Or.inl h
        · exact Or.inr ⟨p + 1, cfg2, by simpa using hget, by omega, hmem, w, hw⟩
      · by_cases hab2 : isAborted env (j + 1) = true
        · have hrw : (runLoop t env fl (cfg :: rest) i0 j store log).1
              = setStore store i0 (markLoading cfg (store i0) (fl.filter cfg.filterFn)) := by
            simp [runLoop, hab, hemp, hab2]
          rw [hrw]
          by_cases hq : q = i0
          · subst hq
            rw [setStore_self]
            rcases markLoading_eq_or cfg (fl.filter cfg.filterFn) (store q) k
                with h | ⟨hm, hv⟩
            · exact Or.inl h
            · exact Or.inr ⟨0, cfg, rfl, by omega, hm, cfg.buildLoadingState, hv⟩
          · left; rw [setStore_ne store _ hq]
        · have hrw : runLoop t env fl (cfg :: rest) i0 j store log
              = runLoop t env fl rest (i0 + 1) (j + 1)
                  (setStore (setStore store i0 (markLoading cfg (store i0) (fl.filter cfg.filterFn))) i0
                    (mergeResults t cfg
                      ((setStore store i0 (markLoading cfg (store i0) (fl.filter cfg.filterFn))) i0)
                      ((fl.filter cfg.filterFn).map
                        (fun f => mkResult t (env.fetchOutcome i0 f) f.name))))
                  (log ++ (fl.filter cfg.filterFn).map
                    (fun f => FetchEvent.quotaFetch i0 f.name)) := by
            simp [runLoop, hab, hemp, hab2]
          rw [hrw]
          rcases ih (i0 + 1) (j + 1)
              (setStore (setStore store i0 (markLoading cfg (store i0) (fl.filter cfg.filterFn))) i0
                (mergeResults t cfg
                  ((setStore store i0 (markLoading cfg (store i0) (fl.filter cfg.filterFn))) i0)
                  ((fl.filter cfg.filterFn).map
                    (fun f => mkResult t (env.fetchOutcome i0 f) f.name))))
              (log ++ (fl.filter cfg.filterFn).map
                (fun f => FetchEvent.quotaFetch i0 f.name)) q k
            with h | ⟨p, cfg2, hget, hq, hmem, w, hw⟩
          · by_cases hq : q = i0
            · subst hq
              simp only [setStore_self] at h ⊢
              rcases mergeResults_eq_or t cfg
                  ((fl.filter cfg.filterFn).map
                    (fun f => mkResult t (env.fetchOutcome q f) f.name))
                  (markLoading cfg (store q) (fl.filter cfg.filterFn)) k
                  with hmg | ⟨hmem2, w2, hw2⟩
              · rcases markLoading_eq_or cfg (fl.filter cfg.filterFn) (store q) k
                    with hm | ⟨hmm, hv⟩
                · left; rw [h, hmg, hm]
                · refine Or.inr ⟨0, cfg, rfl, by omega, hmm, cfg.buildLoadingState, ?_⟩
                  rw [h, hmg, hv]
              · have hmem3 : k ∈ (fl.filter cfg.filterFn).map AuthFileItem.name := by
                  rwa [map_rname_mkResult] at hmem2
                refine Or.inr ⟨0, cfg, rfl, by omega, hmem3, w2, ?_⟩
                rw [h, hw2]
            · left
              rw [setStore_ne _ _ hq, setStore_ne store _ hq] at h
              exact h
          · exact Or.inr ⟨p + 1, cfg2, by simpa using hget, by omega, hmem, w, hw⟩

/-- Frame property of a whole `refreshAllQuotas` run, lifted from
`runLoop_store_frame` across the guard, the abort checks and the
file-list fetch. -/
theorem refreshAll_store_frame (t : Tr) (configs : List (ProviderConfig D S))
    (env : Env D) (st : PageState) (store : Store S) (q : Nat) (k : String) :
    (refreshAllQuotas t configs env st store).store q k = store q k ∨
      ∃ p cfg, configs.get? p = some cfg ∧ q = p ∧
        k ∈ ((filesListOf env).filter cfg.filterFn).map AuthFileItem.name ∧
        ∃ w, (refreshAllQuotas t configs env st store).store q k = some w := by
  by_cases hg : (st.refreshingAll || disableControls st) = true
  · left; simp [refreshAllQuotas, hg]
  · by_cases h1 : isAborted env 1 = true
    · left; simp [refreshAllQuotas, hg, h1]
    · cases henv : env.listOutcome with
      | error e => left; simp [refreshAllQuotas, hg, h1, henv]
      | ok data =>
        by_cases h2 : isAborted env 2 = true
        · left; simp [refreshAllQuotas, hg, h1, henv, h2]
        · have hstore : (refreshAllQuotas t configs env st store).store
              = (runLoop t env (data.getD []) configs 0 2 store
                  [FetchEvent.configFetch, FetchEvent.listFetch]).1 := by
            simp [refreshAllQuotas, hg, h1, henv, h2]
          rw [hstore]
          rcases runLoop_store_frame t env (data.getD []) configs 0 2 store
              [FetchEvent.configFetch, FetchEvent.listFetch] q k
            with h | ⟨p, cfg, hget, hq, hmem, w, hw⟩
          · exact Or.inl h
          · refine Or.inr ⟨p, cfg, hget, by omega, ?_, w, hw⟩
            simpa [filesListOf, henv] using hmem

/-! ## Claims -/

/-- Claim C1, counterexample.  The claim asserts that when the abort
signal is triggered after provider N's per-file fetches have started but
before provider N+1's iteration begins, provider N's fetched results are
still merged.  At the concrete input below (two providers, one matching
file each, every fetch succeeding with data 42, abort flipped during
await 3 — provider 0's `Promise.all`, which is the only suspension point
in the claimed window) provider 0's map still holds the loading mark:
the post-fetch `if (aborted) break` runs before the merge setter, so the
fetched result is not written. -/
theorem refreshAll_abort_claim_counterexample :
    (refreshAllQuotas tId [cfgA, cfgB] envAbort3 stConnected emptyStore).store 0 ("fa")
        = some QDisp.loading ∧
    (refreshAllQuotas tId [cfgA, cfgB] envAbort3 stConnected emptyStore).store 0 ("fa")
        ≠ some (QDisp.success 42) := by
  constructor
  · decide
  · decide

/-- Claim C1, amended.  If the abort signal is triggered while provider
N's per-file quota fetches are in flight — the only awaits between the
start of N's fetches and the start of provider N+1's iteration — then
provider N's map keeps exactly its loading marks (the fetched results
are NOT merged, because the post-fetch abort check breaks out of the
loop first), the quota fetches for provider N are the only new events,
and provider N+1 is never attempted: no loading marks, no fetches and no
merge happen for any later provider. -/
theorem runLoop_abort_during_fetch (t : Tr) (env : Env D)
    (fl : List AuthFileItem) (cfg : ProviderConfig D S)
    (rest : List (ProviderConfig D S)) (i j : Nat) (store : Store S)
    (log : List FetchEvent)
    (hab : isAborted env j = false)
    (hne : (fl.filter cfg.filterFn).isEmpty = false)
    (hab2 : isAborted env (j + 1) = true) :
    runLoop t env fl (cfg :: rest) i j store log =
      (setStore store i (markLoading cfg (store i) (fl.filter cfg.filterFn)),
       log ++ (fl.filter cfg.filterFn).map (fun f => FetchEvent.quotaFetch i f.name),
       j + 1) := by
  simp [runLoop, hab, hne, hab2]

/-- Witness for the amended claim C1: a concrete aborted run over two
providers stops after provider 0's loading marks and fetch events. -/
theorem runLoop_abort_during_fetch_witness :
    runLoop tId envAbort1 [fA, fB] [cfgA, cfgB] 0 0 emptyStore [] =
      (setStore emptyStore 0 (markLoading cfgA (emptyStore 0) ([fA, fB].filter cfgA.filterFn)),
       [] ++ ([fA, fB].filter cfgA.filterFn).map (fun f => FetchEvent.quotaFetch 0 f.name),
       0 + 1) :=
  runLoop_abort_during_fetch tId envAbort1 [fA, fB] cfgA [cfgB] 0 0 emptyStore []
    (by decide) (by decide) (by decide)

/-- Claim C2: within one provider's pass, a per-file fetch rejection
with an `Error` carrying a non-empty message is recorded as that file's
error state with exactly that message and the optional numeric status
code, while every sibling file whose fetch succeeded ends up with its
success state — one file's failure neither aborts the sibling fetches
nor affects any other file's resulting entry. -/
theorem per_file_error_isolated (t : Tr) (cfg : ProviderConfig D S) (env : Env D)
    (fl : List AuthFileItem) (i j : Nat) (store : Store S) (log : List FetchEvent)
    (f : AuthFileItem) (e : JsErr)
    (hab : isAborted env j = false) (hab2 : isAborted env (j + 1) = false)
    (hnd : ((fl.filter cfg.filterFn).map AuthFileItem.name).Nodup)
    (hf : f ∈ fl.filter cfg.filterFn)
    (hoc : env.fetchOutcome i f = Except.error e)
    (hie : e.isError = true) (hmsg : e.message ≠ "") :
    (runLoop t env fl [cfg] i j store log).1 i f.name
        = some (cfg.buildErrorState e.message e.status) ∧
    ∀ g d, g ∈ fl.filter cfg.filterFn → env.fetchOutcome i g = Except.ok d →
      (runLoop t env fl [cfg] i j store log).1 i g.name
        = some (cfg.buildSuccessState d) := by
  have hne : (fl.filter cfg.filterFn).isEmpty = false := by
    cases hfl : fl.filter cfg.filterFn
    · rw [hfl] at hf; cases hf
    · rfl
  have hkey : (runLoop t env fl [cfg] i j store log).1 i
      = mergeResults t cfg (markLoading cfg (store i) (fl.filter cfg.filterFn))
          ((fl.filter cfg.filterFn).map
            (fun g => mkResult t (env.fetchOutcome i g) g.name)) := by
    simp only [runLoop, hab, hne, hab2, Bool.false_eq_true, if_false, if_true,
      Bool.true_eq_false]
    simp [setStore_self]
  have hndrs : (((fl.filter cfg.filterFn).map
      (fun g => mkResult t (env.fetchOutcome i g) g.name)).map QuotaResult.rname).Nodup := by
    rw [map_rname_mkResult]; exact hnd
  constructor
  · have hmem : mkResult t (env.fetchOutcome i f) f.name
        ∈ (fl.filter cfg.filterFn).map
            (fun g => mkResult t (env.fetchOutcome i g) g.name) :=
      List.mem_map_of_mem _ hf
    have h := mergeResults_mem_nodup t cfg _
      (markLoading cfg (store i) (fl.filter cfg.filterFn)) _ hndrs hmem
    rw [rname_mkResult] at h
    rw [hkey, h]
    simp [mkResult, hoc, resultState, hie, hmsg]
  · intro g d hg hgoc
    have hmem : mkResult t (env.fetchOutcome i g) g.name
        ∈ (fl.filter cfg.filterFn).map
            (fun g2 => mkResult t (env.fetchOutcome i g2) g2.name) :=
      List.mem_map_of_mem _ hg
    have h := mergeResults_mem_nodup t cfg _
      (markLoading cfg (store i) (fl.filter cfg.filterFn)) _ hndrs hmem
    rw [rname_mkResult] at h
    rw [hkey, h]
    simp [mkResult, hgoc, resultState]

/-- Witness for claim C2: the spec's example — `fa` rejects with
`{message: 'timeout', status: 503}` and ends as an error entry carrying
them, while its sibling `fb` succeeds with data 7 and is unaffected. -/
theorem per_file_error_isolated_witness :
    (runLoop tId envMixed [fA, fB] [cfgAll] 0 0 emptyStore []).1 0 ("fa")
        = some (QDisp.error "timeout" (some 503)) ∧
    (runLoop tId envMixed [fA, fB] [cfgAll] 0 0 emptyStore []).1 0 ("fb")
        = some (QDisp.success 7) := by
  have h := per_file_error_isolated tId cfgAll envMixed [fA, fB] 0 0 emptyStore []
    fA errTimeout (by decide) (by decide) (by decide) (by decide) (by rfl)
    (by decide) (by decide)
  exact ⟨h.1, h.2 fB 7 (by decide) (by rfl)⟩

/-- Claim C3: invoking `refreshAllQuotas` while a refresh is already
running, or while the controls are disabled (connection status not
`connected`), is a no-op — the page state, the quota store and the abort
reference are all returned unchanged and no fetch is issued. -/
theorem refreshAll_noop_when_busy_or_disabled (t : Tr)
    (configs : List (ProviderConfig D S)) (env : Env D) (st : PageState)
    (store : Store S)
    (h : st.refreshingAll = true ∨ disableControls st = true) :
    refreshAllQuotas t configs env st store = ⟨st, store, []⟩ := by
  have hb : (st.refreshingAll || disableControls st) = true := by
    rcases h with h | h <;> simp [h]
  simp [refreshAllQuotas, hb]

/-- Witness for claim C3: a second invocation while `refreshingAll` is
set changes nothing and issues no fetch. -/
theorem refreshAll_noop_witness :
    refreshAllQuotas tId [cfgA] envClean stBusy emptyStore
      = ⟨stBusy, emptyStore, []⟩ :=
  refreshAll_noop_when_busy_or_disabled tId [cfgA] envClean stBusy emptyStore
    (Or.inl rfl)

/-- Claim C4: during a refresh cycle every write to a provider's
quota-state map is an upsert restricted to the names of the files
currently matching that provider's predicate — any key outside those
names keeps exactly its previous value, and a key that was present
before is still present (mapped to some state) afterwards, whatever the
environment and abort schedule. -/
theorem quota_map_upsert_restricted (t : Tr) (configs : List (ProviderConfig D S))
    (env : Env D) (st : PageState) (store : Store S) (i : Nat)
    (cfg : ProviderConfig D S) (k : String)
    (hget : configs.get? i = some cfg) :
    (k ∉ ((filesListOf env).filter cfg.filterFn).map AuthFileItem.name →
       (refreshAllQuotas t configs env st store).store i k = store i k) ∧
    ∀ v, store i k = some v →
       ∃ w, (refreshAllQuotas t configs env st store).store i k = some w := by
  rcases refreshAll_store_frame t configs env st store i k
    with h | ⟨p, cfg2, hget2, hqp, hmem, w, hw⟩
  · exact ⟨fun _ => h, fun v hv => ⟨v, by rw [h]; exact hv⟩⟩
  · subst hqp
    have hcfg : cfg2 = cfg := by
      rw [hget] at hget2; exact (Option.some.inj hget2).symm
    subst hcfg
    exact ⟨fun hnot => absurd hmem hnot, fun v _ => ⟨w, hw⟩⟩

/-- Witness for claim C4: in a clean run over one provider, a key not
named by any matching file keeps its previous (absent) value. -/
theorem quota_map_upsert_restricted_witness :
    (refreshAllQuotas tId [cfgA] envClean stConnected emptyStore).store 0 ("zz")
      = emptyStore 0 ("zz") :=
  (quota_map_upsert_restricted tId [cfgA] envClean stConnected emptyStore 0 cfgA
      ("zz") (by rfl)).1 (by decide)

/-- Claim C5: `loadFiles` first sets `loading` and clears `error`; on
success it replaces `files` with the fetched list (empty when the
response carries no files field) with `error` left cleared; on failure
it writes the failure message into `error`, overwriting any previous
value; and in both outcomes `loading` is cleared on completion. -/
theorem loadFiles_lifecycle (t : Tr) (st : PageState)
    (outcome : Except JsErr (Option (List AuthFileItem))) :
    ((loadFilesBegin st).loading = true ∧ (loadFilesBegin st).error = "") ∧
    (∀ data, outcome = Except.ok data →
       loadFiles t st outcome
         = { st with files := data.getD [], loading := false, error := "" }) ∧
    ∀ e, outcome = Except.error e →
       (loadFiles t st outcome).error
           = (if e.isError then e.message else t ("notification.refresh_failed")) ∧
       (loadFiles t st outcome).loading = false := by
  refine ⟨⟨rfl, rfl⟩, ?_, ?_⟩
  · intro data h; subst h; rfl
  · intro e h; subst h; exact ⟨rfl, rfl⟩

/-- Witness for claim C5: a concrete successful reload replaces the file
list, clears the error and ends with `loading` off. -/
theorem loadFiles_lifecycle_witness :
    loadFiles tId stConnected (Except.ok (some [fA]))
      = { stConnected with files := [fA], loading := false, error := "" } :=
  (loadFiles_lifecycle tId stConnected (Except.ok (some [fA]))).2.1 (some [fA]) rfl

/-- Claim C6: `loadConfig` never propagates an exception (its embedding
is a total function); on a fetch failure it sets `error` to the failure
message only when `error` is currently empty, leaves an already-set
error untouched, and changes no other field; on success it changes
nothing. -/
theorem loadConfig_first_error_wins (t : Tr) (outcome : Except JsErr Unit)
    (st : PageState) :
    (outcome = Except.ok () → loadConfigStep t outcome st = st) ∧
    ∀ e, outcome = Except.error e →
       (st.error = "" →
          (loadConfigStep t outcome st).error
            = (if e.isError then e.message else t ("notification.refresh_failed"))) ∧
       (st.error ≠ "" → (loadConfigStep t outcome st).error = st.error) ∧
       (loadConfigStep t outcome st).files = st.files ∧
       (loadConfigStep t outcome st).loading = st.loading ∧
       (loadConfigStep t outcome st).refreshingAll = st.refreshingAll ∧
       (loadConfigStep t outcome st).abortInstalled = st.abortInstalled ∧
       (loadConfigStep t outcome st).connectionStatus = st.connectionStatus := by
  constructor
  · intro h; subst h; rfl
  · intro e h; subst h
    refine ⟨fun hz => ?_, fun hnz => ?_, rfl, rfl, rfl, rfl, rfl⟩
    · simp [loadConfigStep, hz]
    · simp [loadConfigStep, hnz]

/-- Witness for claim C6: with an error already displayed, a failing
config fetch leaves it unchanged (first error wins). -/
theorem loadConfig_first_error_wins_witness :
    (loadConfigStep tId (Except.error errTimeout)
        { stConnected with error := "boot" }).error = "boot" :=
  ((loadConfig_first_error_wins tId (Except.error errTimeout)
      { stConnected with error := "boot" }).2 errTimeout rfl).2.1 (by decide)

/-- Claim C7: content within the threshold is rendered unmodified with
no toggle control; longer content collapses to exactly the first
`maxPreviewLength` characters followed by an ellipsis, with the expand
button labelled `ceil(length/1024)KB`. -/
theorem collapsible_preview_and_label (content : String) (maxPreviewLength : Nat) :
    (content.length ≤ maxPreviewLength →
       ∀ isExp, renderCollapsible content maxPreviewLength isExp
         = Rendered.plain content) ∧
    (maxPreviewLength < content.length →
       renderCollapsible content maxPreviewLength false
         = Rendered.collapsed (String.mk (content.data.take maxPreviewLength) ++ "...")
             (Nat.repr ((content.length + 1023) / 1024) ++ "KB")) := by
  constructor
  · intro h isExp; simp [renderCollapsible, h]
  · intro h
    have h2 : ¬ content.length ≤ maxPreviewLength := by omega
    simp [renderCollapsible, h2]

set_option maxRecDepth 4096 in
/-- Witness for claim C7: the spec's example — 500 `x` characters with
threshold 200 give the 200-character preview plus ellipsis and the size
label `1KB` (ceil(500/1024) = 1). -/
theorem collapsible_preview_and_label_witness :
    renderCollapsible xs500 200 false
      = Rendered.collapsed (String.mk (List.replicate 200 'x') ++ "...") ("1KB") := by
  have h := (collapsible_preview_and_label xs500 200).2 (by decide)
  rw [h]
  decide

/-- Claim C8: for content longer than the threshold, the expanded view
is `JSON.stringify(JSON.parse(content), null, 2)` when the content
parses as JSON, and the content verbatim otherwise (the parse failure is
swallowed by `formatContent`'s catch). -/
theorem expanded_view_json_pretty (content : String) (maxPreviewLength : Nat)
    (h : maxPreviewLength < content.length) :
    (∀ j, jsonParse content = some j →
       renderCollapsible content maxPreviewLength true
         = Rendered.expanded (stringifyIndent2 j)) ∧
    (jsonParse content = none →
       renderCollapsible content maxPreviewLength true
         = Rendered.expanded content) := by
  have h2 : ¬ content.length ≤ maxPreviewLength := by omega
  constructor
  · intro j hj; simp [renderCollapsible, h2, formatContent, hj]
  · intro hj; simp [renderCollapsible, h2, formatContent, hj]

/-- Witness for claim C8: `[1,2]` parses and is pretty-printed with a
2-space indent in the expanded view. -/
theorem expanded_view_json_pretty_witness :
    renderCollapsible ("[1,2]") 1 true = Rendered.expanded ("[\n  1,\n  2\n]") := by
  have h := (expanded_view_json_pretty ("[1,2]") 1 (by decide)).1
    (Json.arr [Json.num 1, Json.num 2]) (by rfl)
  rw [h]
  rfl

/-- Claim C9: the toggle state starts collapsed, each click flips it,
and expanding then collapsing reproduces exactly the original collapsed
rendering. -/
theorem toggle_roundtrip_identity (content : String) (maxPreviewLength : Nat)
    (h : maxPreviewLength < content.length) :
    initialIsExpanded = false ∧ (∀ s, clickToggle s = !s) ∧
    renderCollapsible content maxPreviewLength
        (clickToggle (clickToggle initialIsExpanded))
      = renderCollapsible content maxPreviewLength initialIsExpanded := by
  refine ⟨rfl, ?_, rfl⟩
  intro s; cases s <;> rfl

/-- Witness for claim C9 at a concrete oversized content. -/
theorem toggle_roundtrip_identity_witness :
    renderCollapsible ("abc") 1 (clickToggle (clickToggle initialIsExpanded))
      = renderCollapsible ("abc") 1 initialIsExpanded :=
  (toggle_roundtrip_identity ("abc") 1 (by decide)).2.2

/-- Claim C10: when the file-list fetch inside `loadFiles` rejects, the
previously loaded `files` list is retained unchanged; only `error` is
set (to the failure message) and `loading` is cleared. -/
theorem loadFiles_failure_preserves_files (t : Tr) (st : PageState) (e : JsErr) :
    (loadFiles t st (Except.error e)).files = st.files ∧
    (loadFiles t st (Except.error e)).error
      = (if e.isError then e.message else t ("notification.refresh_failed")) ∧
    (loadFiles t st (Except.error e)).loading = false :=
  ⟨rfl, rfl, rfl⟩

end CliProxy
